import Mathlib

/-!
Shallow embedding of the saral-podcast-generator frontend components:
the line classifier of the script viewer (`ScriptViewer.formatScript`), the
insight cards of the episode detail page, the `AudioPanel` polling loop and
render sections, the `BlogUploader` validation paths, and the
`GenerationWizard` settings state.
-/

namespace Saral

/-! ### Script line classification (`ScriptViewer.formatScript`)

`formatScript` splits the script on newlines and classifies each line by a
cascade of checks: `DOUG:`/`**DOUG:**` speaker lines, `CLAIRE:`/`**CLAIRE:**`
speaker lines, the timestamp regex `^\[[\d:]+\]`, the stage-direction regex
`^\[.*\]$`, markdown headings `^#`, horizontal rules `^[-*]{3,}$`, blank
lines, and plain text. -/

inductive Speaker where
  | doug
  | claire
deriving DecidableEq

inductive RLine where
  | speakerLine (s : Speaker) (text : List Char)
  | timestamp (text : List Char)
  | stageDirection (text : List Char)
  | heading (level : Nat) (text : List Char)
  | rule
  | blank
  | plain (text : List Char)
deriving DecidableEq

inductive LineKind where
  | speakerK
  | timestampK
  | stageK
  | headingK
  | ruleK
  | blankK
  | plainK
deriving DecidableEq

def RLine.kind : RLine → LineKind
  | .speakerLine _ _ => .speakerK
  | .timestamp _ => .timestampK
  | .stageDirection _ => .stageK
  | .heading _ _ => .headingK
  | .rule => .ruleK
  | .blank => .blankK
  | .plain _ => .plainK

/-- JavaScript whitespace class `\s` restricted to the characters that can
occur in a split script line. -/
def isWsChar (c : Char) : Bool :=
  c == ' ' || c == '\t' || c == '\r' || c == '\n' || c == '\x0b' || c == '\x0c'

/-- Drop leading whitespace, the `\s*` tail of the label-stripping regexes. -/
def dropWs : List Char → List Char
  | [] => []
  | c :: cs => if isWsChar c then dropWs cs else c :: cs

/-- Trim whitespace from both ends, modelling JavaScript `String.trim`. -/
def jsTrim (l : List Char) : List Char :=
  (dropWs (dropWs l).reverse).reverse

/-- Drop at most `n` leading `'*'` characters, modelling the optional
emphasis asterisks `\*?\*?` of the label-stripping regexes. -/
def dropUpToStars : Nat → List Char → List Char
  | 0, l => l
  | _ + 1, [] => []
  | n + 1, c :: cs => if c == '*' then dropUpToStars n cs else c :: cs

/-- Number of leading `'*'` characters. -/
def leadStars : List Char → Nat
  | [] => 0
  | c :: cs => if c == '*' then leadStars cs + 1 else 0

def dougTag : List Char := ['D', 'O', 'U', 'G']

def claireTag : List Char := ['C', 'L', 'A', 'I', 'R', 'E']

/-- The plain speaker label, e.g. `DOUG:`. -/
def labelPlain (tag : List Char) : List Char := tag ++ [':']

/-- The emphasis-wrapped speaker label, e.g. `**DOUG:**`. -/
def labelBold (tag : List Char) : List Char := '*' :: '*' :: tag ++ [':', '*', '*']

/-- Model of `line.replace(/^\*?\*?TAG:\*?\*?\s*/, "")`: strip up to two leading
asterisks, the tag and colon, up to two more asterisks, and whitespace; a
line the pattern does not match is returned unchanged. -/
def replaceLabel (tag : List Char) (l : List Char) : List Char :=
  let nc := tag ++ [':']
  let k := Nat.min (leadStars l) 2
  if nc.isPrefixOf (l.drop k) then
    dropWs (dropUpToStars 2 ((l.drop k).drop nc.length))
  else l

def isDigitColon (c : Char) : Bool := c.isDigit || c == ':'

/-- The timestamp test `line.match(/^\[[\d:]+\]/)`: an opening bracket, a
nonempty run of digits and colons, and a closing bracket, as a line prefix. -/
def timestampTest : List Char → Bool
  | c :: rest =>
      c == '[' &&
      !(rest.takeWhile isDigitColon).isEmpty &&
      ((rest.dropWhile isDigitColon).headD ' ' == ']')
  | [] => false

/-- The stage-direction test `line.match(/^\[.*\]$/)`: first character `[`,
last character `]`, length at least two. -/
def stageTest : List Char → Bool
  | c :: rest => c == '[' && rest.getLast? == some ']'
  | [] => false

/-- The heading test `line.startsWith("#")`. -/
def headingTest : List Char → Bool
  | c :: _ => c == '#'
  | [] => false

/-- The horizontal-rule test `line.match(/^[-*]{3,}$/)`. -/
def hrTest (l : List Char) : Bool :=
  l.all (fun c => c == '-' || c == '*') && decide (3 ≤ l.length)

/-- The line classifier inside `ScriptViewer.formatScript`, one branch per
early `return` of the original cascade. -/
def classifyLine (l : List Char) : RLine :=
  if (labelPlain dougTag).isPrefixOf l || (labelBold dougTag).isPrefixOf l then
    .speakerLine .doug (replaceLabel dougTag l)
  else if (labelPlain claireTag).isPrefixOf l || (labelBold claireTag).isPrefixOf l then
    .speakerLine .claire (replaceLabel claireTag l)
  else if timestampTest l then
    .timestamp l
  else if stageTest l then
    .stageDirection l
  else if headingTest l then
    .heading (l.takeWhile (· == '#')).length (dropWs (l.dropWhile (· == '#')))
  else if hrTest l then
    .rule
  else if (jsTrim l).isEmpty then
    .blank
  else
    .plain l

/-- Model of `formatScript`: split the script on newlines and classify every line. -/
def formatScript (script : String) : List RLine :=
  (script.splitOn "\n").map (fun line => classifyLine line.data)

/-! ### Spec-side line-shape predicates (from the script-format grammar of the spec) -/

/-- A nonempty group of digits, as in the `MM`/`SS`/`HH` groups. -/
def allDigits (l : List Char) : Prop := l ≠ [] ∧ ∀ c ∈ l, c.isDigit = true

/-- The line starts with a `[MM:SS]` or `[HH:MM:SS]` timestamp. -/
def specTimestampStart (l : List Char) : Prop :=
  (∃ m s t, allDigits m ∧ allDigits s ∧
      l = '[' :: (m ++ ':' :: (s ++ ']' :: t))) ∨
  (∃ hh m s t, allDigits hh ∧ allDigits m ∧ allDigits s ∧
      l = '[' :: (hh ++ ':' :: (m ++ ':' :: (s ++ ']' :: t))))

/-- The line is fully wrapped in a single bracket pair: `[`, an interior
free of brackets, `]`. -/
def specWrappedSingle (l : List Char) : Prop :=
  ∃ inner, (∀ c ∈ inner, c ≠ '[' ∧ c ≠ ']') ∧ l = '[' :: (inner ++ [']'])

/-- The character after the opening bracket is not a digit. -/
def leadingDigitFree (l : List Char) : Bool :=
  match l with
  | _ :: c :: _ => !c.isDigit
  | _ => true

/-- The line begins with `[`, a nonempty run of digits and colons, and `]` —
the shape accepted by the timestamp check in the code. -/
def specTimestampAt (l : List Char) : Prop :=
  ∃ a t, a ≠ [] ∧ (∀ c ∈ a, isDigitColon c = true) ∧ l = '[' :: (a ++ ']' :: t)

/-! ### Insights and the episode detail page (`EpisodeDetailPage`) -/

structure Insights where
  utilities : List String
  consumers : List String
  startups : List String
  regulatory : List String
deriving DecidableEq

inductive InsightCategory where
  | utilities
  | consumers
  | startups
  | regulatory
deriving DecidableEq

def Insights.category (ins : Insights) : InsightCategory → List String
  | .utilities => ins.utilities
  | .consumers => ins.consumers
  | .startups => ins.startups
  | .regulatory => ins.regulatory

/-- One rendered insight card: its category heading and the up-to-two items
shown (`slice(0, 2)`). -/
structure InsightCard where
  category : InsightCategory
  shown : List String
deriving DecidableEq

/-- The insight cards rendered by the episode detail page: one card per
category, rendered only when `category.length > 0`, listing the first two
items. -/
def insightCards (ins : Insights) : List InsightCard :=
  (if 0 < ins.utilities.length then [⟨.utilities, ins.utilities.take 2⟩] else []) ++
  (if 0 < ins.consumers.length then [⟨.consumers, ins.consumers.take 2⟩] else []) ++
  (if 0 < ins.startups.length then [⟨.startups, ins.startups.take 2⟩] else []) ++
  (if 0 < ins.regulatory.length then [⟨.regulatory, ins.regulatory.take 2⟩] else [])

structure Episode where
  id : String
  blog_id : String
  title : String
  script : String
  insights : Option Insights
  summary : String
  duration_estimate : Nat
  humor_level : Nat
  created_at : String
deriving DecidableEq

/-- The insight section of the episode detail page: the card grid is
rendered only when `episode.insights` is present. -/
def episodeInsightCards (e : Episode) : List InsightCard :=
  match e.insights with
  | some ins => insightCards ins
  | none => []

/-! ### The audio job and the `AudioPanel` component -/

inductive AudioStatus where
  | pending
  | generating
  | processing
  | complete
  | failed
deriving DecidableEq

def AudioStatus.isTerminal : AudioStatus → Bool
  | .complete => true
  | .failed => true
  | _ => false

structure AudioJob where
  episode_id : String
  status : AudioStatus
  progress : Nat
  message : String
  segment_count : Option Nat
  duration_seconds : Option Nat
  output_path : Option String
deriving DecidableEq

/-- The polling interval of the `AudioPanel` status effect, in milliseconds. -/
def pollIntervalMs : Nat := 2000

/-- Whether the polling effect installs its interval: it returns early when
no job has been observed or when the observed status is `complete` or
`failed`. -/
def pollScheduled : Option AudioJob → Bool
  | none => false
  | some j =>
      match j.status with
      | .complete => false
      | .failed => false
      | _ => true

/-- The events that can change the observed job of the panel: an interval tick
whose status fetch returned a snapshot (or failed, leaving the observed job
unchanged), and a user-initiated generate/retry whose request succeeded with
a fresh job or failed. -/
inductive PanelEvent where
  | pollTick (result : Option AudioJob)
  | retryStart (fresh : AudioJob)
  | retryFail (msg : String)
deriving DecidableEq

/-- One step of the observed-job state: a tick can only fire while the
interval is installed; `handleGenerate` replaces the job on success and
leaves it alone on failure. -/
def panelStep (observed : Option AudioJob) : PanelEvent → Option AudioJob
  | .pollTick r =>
      if pollScheduled observed then
        match r with
        | some j => some j
        | none => observed
      else observed
  | .retryStart fresh => some fresh
  | .retryFail _ => observed

/-- The failed-state section of the panel: the job message and a retry
button, rendered only when the status is `failed`. -/
structure FailedView where
  message : String
  retryOffered : Bool
deriving DecidableEq

def renderFailedSection : Option AudioJob → Option FailedView
  | some j =>
      match j.status with
      | .failed => some ⟨j.message, true⟩
      | _ => none
  | none => none

/-- The completed-state section of the panel: the audio player sourced from
the download URL of the episode and the download button, rendered only when the
status is `complete`. -/
structure CompleteView where
  playerSrcEpisode : String
  downloadOffered : Bool
deriving DecidableEq

def renderCompleteSection (episodeId : String) : Option AudioJob → Option CompleteView
  | some j =>
      match j.status with
      | .complete => some ⟨episodeId, true⟩
      | _ => none
  | none => none

/-- The outbound API requests the modelled components can issue. -/
inductive ApiCall where
  | generateAudio (episodeId : String)
  | uploadBlog (fileName : String)
  | createBlog (title : String) (content : String)
deriving DecidableEq

/-- Model of `AudioPanel.handleGenerate`: issue a generate-audio request for the
episode of the panel; on success the returned fresh job replaces the observed
one, on failure the observed job is untouched and the message is shown. -/
def handleGenerate (episodeId : String) (observed : Option AudioJob)
    (result : Except String AudioJob) :
    List ApiCall × Option AudioJob × Option String :=
  ⟨[.generateAudio episodeId],
    match result with
    | .ok job => (some job, none)
    | .error msg => (observed, some msg)⟩

/-! ### `BlogUploader` validation -/

/-- JavaScript `String.trim` on a Lean string. -/
def jsTrimS (s : String) : String := ⟨jsTrim s.data⟩

def pasteValidationMsg : String := "Please provide both title and content"

/-- Model of `BlogUploader.handlePasteSubmit`: reject with a validation message when
the trimmed title or content is empty, otherwise issue the create-blog
request with the original title and content. -/
def handlePasteSubmit (title content : String) : List ApiCall × Option String :=
  if jsTrimS title = "" ∨ jsTrimS content = "" then
    ([], some pasteValidationMsg)
  else
    ([.createBlog title content], none)

def markdownErrMsg : String := "Please upload a markdown file (.md)"

/-- JavaScript `String.endsWith` on a Lean string, compared character-wise. -/
def jsEndsWith (s pat : String) : Bool := pat.data.isSuffixOf s.data

/-- The shared body of `BlogUploader.handleDrop` and
`BlogUploader.handleFileSelect`: reject files whose name ends in neither
`.md` nor `.markdown`, otherwise issue the upload request. -/
def handleFileChosen (name : String) : List ApiCall × Option String :=
  if !(jsEndsWith name ".md") && !(jsEndsWith name ".markdown") then
    ([], some markdownErrMsg)
  else
    ([.uploadBlog name], none)

/-! ### `GenerationWizard` settings -/

inductive Duration where
  | short
  | medium
  | long
deriving DecidableEq

structure GenerationSettings where
  duration : Duration
  humor_level : Int
  focus_areas : List String
  custom_talking_points : List String
deriving DecidableEq

/-- The initial `useState` value of the wizard. -/
def initialSettings : GenerationSettings :=
  { duration := .medium, humor_level := 3, focus_areas := [], custom_talking_points := [] }

/-- The ids of the `focusOptions` buttons of the wizard. -/
def focusOptionIds : List String := ["utilities", "consumers", "startups", "regulatory"]

/-- The target minute band displayed for each duration choice. -/
def minuteBand : Duration → Nat
  | .short => 10
  | .medium => 20
  | .long => 30

def setDuration (d : Duration) (s : GenerationSettings) : GenerationSettings :=
  { s with duration := d }

def setHumor (v : Int) (s : GenerationSettings) : GenerationSettings :=
  { s with humor_level := v }

/-- Model of `GenerationWizard.toggleFocusArea`: remove every occurrence of the area
when present, append it when absent. -/
def toggleFocusArea (area : String) (s : GenerationSettings) : GenerationSettings :=
  { s with
    focus_areas :=
      if s.focus_areas.contains area then
        s.focus_areas.filter (fun a => a != area)
      else
        s.focus_areas ++ [area] }

/-- The wizard operations reachable from its UI. -/
inductive WizardOp where
  | selectDuration (d : Duration)
  | humorSlider (v : Int)
  | toggleFocus (area : String)
deriving DecidableEq

/-- Validity of an operation payload, as guaranteed by the DOM: the humor
slider is a range input with `min={1}` and `max={5}`, and focus-area buttons
exist only for the four `focusOptions` ids. -/
def WizardOp.valid : WizardOp → Prop
  | .selectDuration _ => True
  | .humorSlider v => 1 ≤ v ∧ v ≤ 5
  | .toggleFocus area => area ∈ focusOptionIds

def applyOp (s : GenerationSettings) : WizardOp → GenerationSettings
  | .selectDuration d => setDuration d s
  | .humorSlider v => setHumor v s
  | .toggleFocus area => toggleFocusArea area s

/-- The settings values producible by the wizard: the initial state and
everything reachable from it by valid operations. -/
inductive ReachableSettings : GenerationSettings → Prop where
  | init : ReachableSettings initialSettings
  | step (s : GenerationSettings) (op : WizardOp) :
      ReachableSettings s → op.valid → ReachableSettings (applyOp s op)

/-- The settings invariant of the GenerationSettings value object of the spec. -/
def SettingsInv (s : GenerationSettings) : Prop :=
  1 ≤ s.humor_level ∧ s.humor_level ≤ 5 ∧ ∀ a ∈ s.focus_areas, a ∈ focusOptionIds

end Saral

namespace Saral

/-! ### Theorems for claim C2 -/

/-- Claim C2: a line beginning with `DOUG:` is rendered as dialogue for Doug
with the label, any emphasis asterisks after the colon, and the following
whitespace stripped; a line beginning with `**DOUG:**` likewise with the
whole wrapped label and following whitespace stripped; symmetrically for
`CLAIRE:` and `**CLAIRE:**`. -/
theorem C2_speaker_label_stripped (t : List Char) :
    classifyLine (labelPlain dougTag ++ t) =
      RLine.speakerLine Speaker.doug (dropWs (dropUpToStars 2 t)) ∧
    classifyLine (labelBold dougTag ++ t) =
      RLine.speakerLine Speaker.doug (dropWs t) ∧
    classifyLine (labelPlain claireTag ++ t) =
      RLine.speakerLine Speaker.claire (dropWs (dropUpToStars 2 t)) ∧
    classifyLine (labelBold claireTag ++ t) =
      RLine.speakerLine Speaker.claire (dropWs t) := by
  refine ⟨?_, ?_, ?_, ?_⟩ <;>
    simp [classifyLine, labelPlain, labelBold, dougTag, claireTag,
      List.isPrefixOf, replaceLabel, leadStars, dropUpToStars, Nat.min]

/-! ### Helper lemmas about the line tests -/

theorem takeWhile_sat_append (p : Char → Bool) (a : List Char) (b : Char) (t : List Char)
    (ha : ∀ c ∈ a, p c = true) (hb : p b = false) :
    (a ++ b :: t).takeWhile p = a ∧ (a ++ b :: t).dropWhile p = b :: t := by
  induction a with
  | nil => simp [List.takeWhile_cons, List.dropWhile_cons, hb]
  | cons c cs ih =>
      have hc : p c = true := ha c (List.mem_cons_self c cs)
      have ih2 := ih (fun d hd => ha d (List.mem_cons_of_mem c hd))
      simp [List.takeWhile_cons, List.dropWhile_cons, hc, ih2.1, ih2.2]

theorem speakerGuards_bracket (rest : List Char) :
    ((labelPlain dougTag).isPrefixOf ('[' :: rest)
      || (labelBold dougTag).isPrefixOf ('[' :: rest)) = false ∧
    ((labelPlain claireTag).isPrefixOf ('[' :: rest)
      || (labelBold claireTag).isPrefixOf ('[' :: rest)) = false := by
  constructor <;> simp [labelPlain, labelBold, dougTag, claireTag, List.isPrefixOf]

theorem classifyLine_bracket_ts (rest : List Char)
    (h : timestampTest ('[' :: rest) = true) :
    classifyLine ('[' :: rest) = RLine.timestamp ('[' :: rest) := by
  have hg := speakerGuards_bracket rest
  simp [classifyLine, hg.1, hg.2, h]

theorem classifyLine_bracket_stage (rest : List Char)
    (h1 : timestampTest ('[' :: rest) = false)
    (h2 : stageTest ('[' :: rest) = true) :
    classifyLine ('[' :: rest) = RLine.stageDirection ('[' :: rest) := by
  have hg := speakerGuards_bracket rest
  simp [classifyLine, hg.1, hg.2, h1, h2]

theorem timestampTest_iff (l : List Char) :
    timestampTest l = true ↔ specTimestampAt l := by
  constructor
  · intro h
    match l with
    | [] => simp [timestampTest] at h
    | c :: rest =>
        simp only [timestampTest, Bool.and_eq_true, beq_iff_eq, Bool.not_eq_true'] at h
        obtain ⟨⟨hc, hne⟩, hd⟩ := h
        subst hc
        refine ⟨rest.takeWhile isDigitColon, ?_⟩
        have hsplit := List.takeWhile_append_dropWhile (p := isDigitColon) (l := rest)
        cases hdw : rest.dropWhile isDigitColon with
        | nil => rw [hdw] at hd; simp at hd
        | cons e es =>
            rw [hdw] at hd
            simp at hd
            subst hd
            refine ⟨es, ?_, ?_, ?_⟩
            · intro hnil
              rw [hnil] at hsplit
              rw [hnil] at hne
              simp at hne
            · intro d hdmem
              exact List.mem_takeWhile_imp hdmem
            · rw [← hdw, hsplit]
  · rintro ⟨a, t, hne, hall, rfl⟩
    have hsat := takeWhile_sat_append isDigitColon a ']' t hall (by decide)
    simp [timestampTest, hsat.1, hsat.2, hne]

theorem stageTest_wrapped (inner : List Char) :
    stageTest ('[' :: (inner ++ [']'])) = true := by
  simp [stageTest, List.getLast?_concat]

/-- Claim C1 (amended): a line starting with a `[MM:SS]`/`[HH:MM:SS]`
timestamp is classified as a timestamp marker; a line fully wrapped in a
single bracket pair with no leading digit, and not starting with the
bracketed digits-and-colons timestamp pattern, is classified as a stage
direction; every fully bracket-wrapped line is classified as one of those
two bracketed kinds; and no line is classified as both. -/
theorem C1_line_kind_assignment (l : List Char) :
    (specTimestampStart l → (classifyLine l).kind = LineKind.timestampK) ∧
    (specWrappedSingle l → leadingDigitFree l = true → ¬ specTimestampAt l →
        (classifyLine l).kind = LineKind.stageK) ∧
    (specWrappedSingle l →
        (classifyLine l).kind = LineKind.timestampK ∨
        (classifyLine l).kind = LineKind.stageK) ∧
    ¬((classifyLine l).kind = LineKind.timestampK ∧
        (classifyLine l).kind = LineKind.stageK) := by
  have hstage : ∀ inner : List Char, ¬ specTimestampAt ('[' :: (inner ++ [']'])) →
      (classifyLine ('[' :: (inner ++ [']']))).kind = LineKind.stageK := by
    intro inner hnts
    have hts : timestampTest ('[' :: (inner ++ [']'])) = false := by
      cases h : timestampTest ('[' :: (inner ++ [']'])) with
      | false => rfl
      | true => exact absurd ((timestampTest_iff _).mp h) hnts
    rw [classifyLine_bracket_stage _ hts (stageTest_wrapped inner)]
    rfl
  refine ⟨?_, ?_, ?_, ?_⟩
  · rintro (⟨m, s, t, hm, hs, rfl⟩ | ⟨hh, m, s, t, hh1, hm, hs, rfl⟩)
    · have hts : timestampTest ('[' :: (m ++ ':' :: (s ++ ']' :: t))) = true := by
        refine (timestampTest_iff _).mpr ⟨m ++ ':' :: s, t, ?_, ?_, ?_⟩
        · simp
        · intro c hc
          rcases List.mem_append.mp hc with hcm | hcs
          · simp [isDigitColon, hm.2 c hcm]
          · rcases List.mem_cons.mp hcs with rfl | hcs2
            · simp [isDigitColon]
            · simp [isDigitColon, hs.2 c hcs2]
        · simp
      rw [classifyLine_bracket_ts _ hts]
      rfl
    · have hts : timestampTest
          ('[' :: (hh ++ ':' :: (m ++ ':' :: (s ++ ']' :: t)))) = true := by
        refine (timestampTest_iff _).mpr ⟨hh ++ ':' :: (m ++ ':' :: s), t, ?_, ?_, ?_⟩
        · simp
        · intro c hc
          rcases List.mem_append.mp hc with hch | hcr
          · simp [isDigitColon, hh1.2 c hch]
          · rcases List.mem_cons.mp hcr with rfl | hcr2
            · simp [isDigitColon]
            · rcases List.mem_append.mp hcr2 with hcm | hcs
              · simp [isDigitColon, hm.2 c hcm]
              · rcases List.mem_cons.mp hcs with rfl | hcs2
                · simp [isDigitColon]
                · simp [isDigitColon, hs.2 c hcs2]
        · simp
      rw [classifyLine_bracket_ts _ hts]
      rfl
  · rintro ⟨inner, hin, rfl⟩ hld hnts
    exact hstage inner hnts
  · rintro ⟨inner, hin, rfl⟩
    cases h : timestampTest ('[' :: (inner ++ [']'])) with
    | true =>
        left
        rw [classifyLine_bracket_ts _ h]
        rfl
    | false =>
        right
        rw [classifyLine_bracket_stage _ h (stageTest_wrapped inner)]
        rfl
  · rintro ⟨h1, h2⟩
    rw [h1] at h2
    exact LineKind.noConfusion h2

/-- Witness for C1: `[12:34]` is a timestamp marker and `[cheers]` is a
stage direction. -/
theorem C1_line_kind_assignment_witness :
    (classifyLine ['[', '1', '2', ':', '3', '4', ']']).kind = LineKind.timestampK ∧
    (classifyLine ['[', 'c', 'h', 'e', 'e', 'r', 's', ']']).kind = LineKind.stageK := by
  constructor
  · exact (C1_line_kind_assignment _).1
      (Or.inl ⟨['1', '2'], ['3', '4'], [], ⟨by decide, by decide⟩,
        ⟨by decide, by decide⟩, rfl⟩)
  · refine (C1_line_kind_assignment _).2.1
      ⟨['c', 'h', 'e', 'e', 'r', 's'], by decide, rfl⟩ (by decide) ?_
    intro hts
    exact absurd ((timestampTest_iff _).mpr hts) (by decide)

/-- Counterexample for C1 as stated: the line `[:]` is fully wrapped in a
single bracket pair and has no leading digit, yet it is classified as a
timestamp marker, not a stage direction, because the timestamp
pattern `[` (digits or colons)+ `]` also accepts a colon-only content. -/
theorem C1_stage_direction_counterexample :
    specWrappedSingle ['[', ':', ']'] ∧
    leadingDigitFree ['[', ':', ']'] = true ∧
    (classifyLine ['[', ':', ']']).kind ≠ LineKind.stageK := by
  exact ⟨⟨[':'], by decide, rfl⟩, by decide, by decide⟩

/-! ### Theorems for claim C3 -/

theorem mem_ite_singleton {α : Type} (c : Prop) [Decidable c] (x y : α) :
    (y ∈ if c then [x] else ([] : List α)) ↔ c ∧ y = x := by
  by_cases h : c <;> simp [h]

theorem mem_insightCards (ins : Insights) (cat : InsightCategory) :
    (∃ card ∈ insightCards ins, card.category = cat) ↔ ins.category cat ≠ [] := by
  cases cat <;>
    simp [insightCards, Insights.category, List.mem_append, mem_ite_singleton,
      List.length_pos, or_and_right, exists_or, and_assoc, exists_and_left,
      exists_eq_left]

/-- Claim C3: for an episode whose insights are present, the detail page
renders a card for a category if and only if the list of that category is
nonempty; an all-empty Insights value renders no cards at all. -/
theorem C3_insight_cards_iff_nonempty (e : Episode) (ins : Insights)
    (h : e.insights = some ins) :
    (∀ cat : InsightCategory,
        (∃ card ∈ episodeInsightCards e, card.category = cat) ↔
          ins.category cat ≠ []) ∧
    insightCards ⟨[], [], [], []⟩ = [] := by
  have he : episodeInsightCards e = insightCards ins := by
    unfold episodeInsightCards
    rw [h]
  refine ⟨?_, rfl⟩
  intro cat
  rw [he]
  exact mem_insightCards ins cat

/-- Witness for C3 at a concrete episode whose utilities list is the only
nonempty category. -/
theorem C3_insight_cards_witness :
    (∃ card ∈ episodeInsightCards
        ⟨"e1", "b1", "t", "s", some ⟨["u1"], [], [], []⟩, "sum", 10, 2, "d"⟩,
      card.category = InsightCategory.utilities) ∧
    ¬(∃ card ∈ episodeInsightCards
        ⟨"e1", "b1", "t", "s", some ⟨["u1"], [], [], []⟩, "sum", 10, 2, "d"⟩,
      card.category = InsightCategory.consumers) := by
  have h := C3_insight_cards_iff_nonempty
    ⟨"e1", "b1", "t", "s", some ⟨["u1"], [], [], []⟩, "sum", 10, 2, "d"⟩
    ⟨["u1"], [], [], []⟩ rfl
  exact ⟨(h.1 .utilities).mpr (by decide), fun hx => (h.1 .consumers).mp hx rfl⟩

/-! ### Theorems for claim C4 -/

/-- Claim C4: with a terminal job observed, the polling interval is not
installed, a tick cannot change the observed job, and the observed job
changes only through an explicit retry that installs the fresh job; polling
is enabled only for non-terminal observed statuses, at a 2000 ms interval. -/
theorem C4_terminal_state_stops_polling (j : AudioJob)
    (hterm : j.status = AudioStatus.complete ∨ j.status = AudioStatus.failed) :
    pollScheduled (some j) = false ∧
    (∀ r, panelStep (some j) (.pollTick r) = some j) ∧
    (∀ e, panelStep (some j) e ≠ some j →
        ∃ fresh, e = .retryStart fresh ∧ panelStep (some j) e = some fresh) ∧
    (∀ k : AudioJob, pollScheduled (some k) = true → k.status.isTerminal = false) ∧
    pollIntervalMs = 2000 := by
  have hps : pollScheduled (some j) = false := by
    rcases hterm with h | h <;> simp [pollScheduled, h]
  refine ⟨hps, ?_, ?_, ?_, rfl⟩
  · intro r
    simp [panelStep, hps]
  · intro e he
    cases e with
    | pollTick r => simp [panelStep, hps] at he
    | retryStart fresh => exact ⟨fresh, rfl, rfl⟩
    | retryFail msg => simp [panelStep] at he
  · intro k hk
    cases hst : k.status <;>
      simp [pollScheduled, hst, AudioStatus.isTerminal] at hk ⊢

/-- Witness for C4 at a concrete failed job. -/
theorem C4_terminal_state_stops_polling_witness :
    pollScheduled (some ⟨"ep1", AudioStatus.failed, 40, "boom", none, none, none⟩) = false ∧
    panelStep (some ⟨"ep1", AudioStatus.failed, 40, "boom", none, none, none⟩)
        (.pollTick (some ⟨"ep1", AudioStatus.pending, 0, "q", none, none, none⟩)) =
      some ⟨"ep1", AudioStatus.failed, 40, "boom", none, none, none⟩ := by
  have h := C4_terminal_state_stops_polling
    ⟨"ep1", AudioStatus.failed, 40, "boom", none, none, none⟩ (Or.inr rfl)
  exact ⟨h.1, h.2.1 _⟩

/-! ### Theorems for claim C5 -/

/-- Claim C5: a failed job is rendered with its human-readable message and a
retry action; the retry issues a generate-audio request for the same
episode, a success installs the fresh job returned by the API, and a failure
leaves the observed failed job untouched. -/
theorem C5_failed_shows_message_and_retry (j : AudioJob)
    (h : j.status = AudioStatus.failed) :
    renderFailedSection (some j) = some ⟨j.message, true⟩ ∧
    (∀ episodeId observed result,
        (handleGenerate episodeId observed result).1 =
          [ApiCall.generateAudio episodeId]) ∧
    (∀ episodeId fresh,
        (handleGenerate episodeId (some j) (.ok fresh)).2.1 = some fresh) ∧
    (∀ episodeId msg,
        (handleGenerate episodeId (some j) (.error msg)).2.1 = some j ∧
        (handleGenerate episodeId (some j) (.error msg)).2.2 = some msg) := by
  refine ⟨?_, fun _ _ _ => rfl, fun _ _ => rfl, fun _ _ => ⟨rfl, rfl⟩⟩
  simp [renderFailedSection, h]

/-- Witness for C5 at a concrete failed job and a concrete fresh job. -/
theorem C5_failed_shows_message_and_retry_witness :
    renderFailedSection (some ⟨"ep1", AudioStatus.failed, 40, "boom", none, none, none⟩) =
      some ⟨"boom", true⟩ ∧
    (handleGenerate "ep1"
        (some ⟨"ep1", AudioStatus.failed, 40, "boom", none, none, none⟩)
        (.ok ⟨"ep1", AudioStatus.pending, 0, "queued", none, none, none⟩)).2.1 =
      some ⟨"ep1", AudioStatus.pending, 0, "queued", none, none, none⟩ := by
  have h := C5_failed_shows_message_and_retry
    ⟨"ep1", AudioStatus.failed, 40, "boom", none, none, none⟩ rfl
  exact ⟨h.1, h.2.2.1 "ep1" _⟩

/-! ### Theorems for claim C6 -/

/-- Claim C6: a paste-mode submission whose trimmed title or content is
empty issues no API call and reports the validation message; the create-blog
request is issued exactly when both are nonempty after trimming. -/
theorem C6_paste_requires_title_and_content (title content : String) :
    ((jsTrimS title = "" ∨ jsTrimS content = "") →
        handlePasteSubmit title content = ([], some pasteValidationMsg)) ∧
    (jsTrimS title ≠ "" → jsTrimS content ≠ "" →
        handlePasteSubmit title content = ([.createBlog title content], none)) ∧
    ((handlePasteSubmit title content).1 ≠ [] →
        jsTrimS title ≠ "" ∧ jsTrimS content ≠ "") := by
  by_cases h : jsTrimS title = "" ∨ jsTrimS content = ""
  · refine ⟨fun _ => by simp [handlePasteSubmit, h], ?_, ?_⟩
    · intro ht hc
      rcases h with h | h
      · exact absurd h ht
      · exact absurd h hc
    · simp [handlePasteSubmit, h]
  · have hni := h
    push_neg at hni
    exact ⟨fun hc => absurd hc h, fun _ _ => by simp [handlePasteSubmit, h],
      fun _ => hni⟩

/-- Witness for C6: an empty title is rejected without a call, and a filled
form issues the create request. -/
theorem C6_paste_requires_title_and_content_witness :
    handlePasteSubmit "" "body" = ([], some pasteValidationMsg) ∧
    handlePasteSubmit "Title" "Body" = ([ApiCall.createBlog "Title" "Body"], none) := by
  exact ⟨(C6_paste_requires_title_and_content "" "body").1 (Or.inl (by decide)),
    (C6_paste_requires_title_and_content "Title" "Body").2.1 (by decide) (by decide)⟩

/-! ### Theorems for claim C7 -/

/-- Claim C7: the audio player and download action are rendered if and only
if the status of the observed job is `complete`; in every other status (or with
no observed job) the completed section is absent. -/
theorem C7_player_iff_complete (episodeId : String) (observed : Option AudioJob) :
    ((renderCompleteSection episodeId observed).isSome = true ↔
        ∃ j, observed = some j ∧ j.status = AudioStatus.complete) ∧
    (∀ j, observed = some j → j.status ≠ AudioStatus.complete →
        renderCompleteSection episodeId observed = none) ∧
    (∀ j, observed = some j → j.status = AudioStatus.complete →
        renderCompleteSection episodeId observed = some ⟨episodeId, true⟩) := by
  refine ⟨?_, ?_, ?_⟩
  · cases observed with
    | none => simp [renderCompleteSection]
    | some j => cases h : j.status <;> simp [renderCompleteSection, h]
  · intro j hj hne
    subst hj
    cases h : j.status with
    | complete => exact absurd h hne
    | pending => simp [renderCompleteSection, h]
    | generating => simp [renderCompleteSection, h]
    | processing => simp [renderCompleteSection, h]
    | failed => simp [renderCompleteSection, h]
  · intro j hj hc
    subst hj
    simp [renderCompleteSection, hc]

/-- Witness for C7 at a complete and at a pending job. -/
theorem C7_player_iff_complete_witness :
    (renderCompleteSection "ep1"
        (some ⟨"ep1", AudioStatus.complete, 100, "done", some 3, some 120, some "p"⟩)).isSome
      = true ∧
    renderCompleteSection "ep1"
        (some ⟨"ep1", AudioStatus.pending, 0, "q", none, none, none⟩) = none := by
  have h1 := C7_player_iff_complete "ep1"
    (some ⟨"ep1", AudioStatus.complete, 100, "done", some 3, some 120, some "p"⟩)
  have h2 := C7_player_iff_complete "ep1"
    (some ⟨"ep1", AudioStatus.pending, 0, "q", none, none, none⟩)
  exact ⟨h1.1.mpr ⟨_, rfl, rfl⟩, h2.2.1 _ rfl (by decide)⟩

/-! ### Theorems for claims C8 and C10: focus-area toggling -/

theorem toggleFocusArea_pos_fa (area : String) (s : GenerationSettings)
    (h : s.focus_areas.contains area = true) :
    (toggleFocusArea area s).focus_areas =
      s.focus_areas.filter (fun a => a != area) := by
  unfold toggleFocusArea
  rw [h]
  simp

theorem toggleFocusArea_neg_fa (area : String) (s : GenerationSettings)
    (h : s.focus_areas.contains area = false) :
    (toggleFocusArea area s).focus_areas = s.focus_areas ++ [area] := by
  unfold toggleFocusArea
  rw [h]
  simp

theorem toggle_mem_focus (area x : String) (s : GenerationSettings) :
    x ∈ (toggleFocusArea area s).focus_areas ↔
      (x ∈ s.focus_areas ∧ x ≠ area) ∨ (x = area ∧ area ∉ s.focus_areas) := by
  cases hc : s.focus_areas.contains area with
  | true =>
      have hmem : area ∈ s.focus_areas := List.elem_iff.mp hc
      rw [toggleFocusArea_pos_fa area s hc]
      simp only [List.mem_filter, bne_iff_ne]
      constructor
      · rintro ⟨hx, hne⟩
        exact Or.inl ⟨hx, hne⟩
      · rintro (⟨hx, hne⟩ | ⟨rfl, hna⟩)
        · exact ⟨hx, hne⟩
        · exact absurd hmem hna
  | false =>
      have hmem : area ∉ s.focus_areas := fun hm =>
        Bool.noConfusion ((List.elem_iff.mpr hm).symm.trans hc)
      rw [toggleFocusArea_neg_fa area s hc]
      simp only [List.mem_append, List.mem_singleton]
      constructor
      · rintro (hx | rfl)
        · by_cases hxa : x = area
          · subst hxa
            exact Or.inr ⟨rfl, hmem⟩
          · exact Or.inl ⟨hx, hxa⟩
        · exact Or.inr ⟨rfl, hmem⟩
      · rintro (⟨hx, _⟩ | ⟨rfl, _⟩)
        · exact Or.inl hx
        · exact Or.inr rfl

/-! ### Theorems for claim C8 -/

/-- Claim C8: every settings value producible by the wizard keeps
humor_level in [1,5] and focus_areas within the four category tags; the
initial state is (medium, humor 3, no focus areas, no talking points), and
the displayed minute bands are 10/20/30 for short/medium/long. -/
theorem C8_settings_invariant (s : GenerationSettings) (hs : ReachableSettings s) :
    SettingsInv s ∧ SettingsInv initialSettings ∧
    initialSettings = ⟨Duration.medium, 3, [], []⟩ ∧
    minuteBand .short = 10 ∧ minuteBand .medium = 20 ∧ minuteBand .long = 30 := by
  have hinv : ∀ t, ReachableSettings t → SettingsInv t := by
    intro t ht
    induction ht with
    | init => exact ⟨by decide, by decide, by simp [initialSettings]⟩
    | step t op ht hv ih =>
        cases op with
        | selectDuration d => exact ⟨ih.1, ih.2.1, ih.2.2⟩
        | humorSlider v => exact ⟨hv.1, hv.2, ih.2.2⟩
        | toggleFocus area =>
            refine ⟨ih.1, ih.2.1, ?_⟩
            intro a ha
            simp only [applyOp] at ha
            rcases (toggle_mem_focus area a t).mp ha with ⟨hmem, _⟩ | ⟨rfl, _⟩
            · exact ih.2.2 a hmem
            · exact hv
  exact ⟨hinv s hs, hinv _ .init, rfl, rfl, rfl, rfl⟩

/-- Witness for C8 at the state reached by toggling `startups` once. -/
theorem C8_settings_invariant_witness :
    1 ≤ (applyOp initialSettings (.toggleFocus "startups")).humor_level ∧
    (applyOp initialSettings (.toggleFocus "startups")).humor_level ≤ 5 ∧
    ∀ a ∈ (applyOp initialSettings (.toggleFocus "startups")).focus_areas,
      a ∈ focusOptionIds := by
  have h := C8_settings_invariant (applyOp initialSettings (.toggleFocus "startups"))
    (.step initialSettings (.toggleFocus "startups") .init
      (by simp [WizardOp.valid, focusOptionIds]))
  exact h.1

/-! ### Theorems for claim C9 -/

/-- Claim C9: a chosen file whose name ends in neither `.md` nor `.markdown`
triggers no upload call and shows the markdown error message; the upload
request is issued exactly for names passing the extension check. -/
theorem C9_markdown_extension_gate (name : String) :
    (jsEndsWith name ".md" = false → jsEndsWith name ".markdown" = false →
        handleFileChosen name = ([], some markdownErrMsg)) ∧
    ((jsEndsWith name ".md" = true ∨ jsEndsWith name ".markdown" = true) →
        handleFileChosen name = ([ApiCall.uploadBlog name], none)) ∧
    ((handleFileChosen name).1 ≠ [] →
        jsEndsWith name ".md" = true ∨ jsEndsWith name ".markdown" = true) := by
  cases h1 : jsEndsWith name ".md" <;> cases h2 : jsEndsWith name ".markdown" <;>
    simp [handleFileChosen, h1, h2]

/-- Witness for C9: a `.txt` name is rejected with the error message and a
`.md` name is uploaded. -/
theorem C9_markdown_extension_gate_witness :
    handleFileChosen "notes.txt" = ([], some markdownErrMsg) ∧
    handleFileChosen "notes.md" = ([ApiCall.uploadBlog "notes.md"], none) := by
  exact ⟨(C9_markdown_extension_gate "notes.txt").1 (by decide) (by decide),
    (C9_markdown_extension_gate "notes.md").2.1 (Or.inl (by decide))⟩

/-! ### Theorems for claim C10 -/

/-- Claim C10: toggling a focus area twice restores the original set of
focus areas; one toggle contains the area exactly when it was absent,
removes every occurrence when it was present (appending it when absent),
leaves the membership of other areas unchanged, and never touches duration,
humor_level, or custom_talking_points. -/
theorem C10_toggle_focus_area (area : String) (s : GenerationSettings) :
    (∀ x, x ∈ (toggleFocusArea area (toggleFocusArea area s)).focus_areas ↔
        x ∈ s.focus_areas) ∧
    (area ∈ (toggleFocusArea area s).focus_areas ↔ area ∉ s.focus_areas) ∧
    (∀ x, x ≠ area →
        (x ∈ (toggleFocusArea area s).focus_areas ↔ x ∈ s.focus_areas)) ∧
    (area ∈ s.focus_areas → (toggleFocusArea area s).focus_areas.count area = 0) ∧
    (area ∉ s.focus_areas →
        (toggleFocusArea area s).focus_areas = s.focus_areas ++ [area]) ∧
    (toggleFocusArea area s).duration = s.duration ∧
    (toggleFocusArea area s).humor_level = s.humor_level ∧
    (toggleFocusArea area s).custom_talking_points = s.custom_talking_points := by
  refine ⟨?_, ?_, ?_, ?_, ?_, rfl, rfl, rfl⟩
  · intro x
    by_cases hx : x = area
    · subst hx
      by_cases hin : x ∈ s.focus_areas <;> simp [toggle_mem_focus, hin]
    · simp [toggle_mem_focus, hx]
  · simp [toggle_mem_focus]
  · intro x hx
    simp [toggle_mem_focus, hx]
  · intro hin
    rw [List.count_eq_zero]
    simp [toggle_mem_focus, hin]
  · intro hnin
    have hcf : s.focus_areas.contains area = false := by
      cases hcc : s.focus_areas.contains area with
      | false => rfl
      | true => exact absurd (List.elem_iff.mp hcc) hnin
    exact toggleFocusArea_neg_fa area s hcf

/-- Witness for C10: toggling `startups` on the initial settings adds it,
and toggling twice removes it again. -/
theorem C10_toggle_focus_area_witness :
    ("startups" ∈ (toggleFocusArea "startups" initialSettings).focus_areas ↔
        "startups" ∉ initialSettings.focus_areas) ∧
    (toggleFocusArea "startups" initialSettings).focus_areas =
        initialSettings.focus_areas ++ ["startups"] ∧
    (toggleFocusArea "startups"
        (toggleFocusArea "startups" initialSettings)).focus_areas.count "startups" = 0 := by
  have h := C10_toggle_focus_area "startups" initialSettings
  have h2 := C10_toggle_focus_area "startups" (toggleFocusArea "startups" initialSettings)
  refine ⟨h.2.1, h.2.2.2.2.1 (by decide), h2.2.2.2.1 (h.2.1.mpr (by decide))⟩

end Saral
